import Mathlib

/-
  Verification development for the WOR (water-oil ratio) decline forecasting
  module of the dcapy repository (src/dcapy/dca/wor.py).

  The embedding works over the real numbers. Machine-float behaviour is
  abstracted to exact real arithmetic except where a claim is specifically
  about the IEEE division-by-zero behaviour of numpy, which is modelled
  explicitly by `npDiv` below.
-/

open Classical

noncomputable section

namespace Dcapy

/-- Scalar core of `wor_to_bsw` (wor.py line 25): `bsw = wor/(wor+1)`. -/
def wor_to_bsw (w : ℝ) : ℝ := w / (w + 1)

/-- Scalar core of `bsw_to_wor` (wor.py line 18): `wor = bsw/(1-bsw)`. -/
def bsw_to_wor (b : ℝ) : ℝ := b / (1 - b)

/-- Result of one numpy floating-point operation: a finite value, a signed
infinity, or NaN. Used only for the claims about numpy division semantics. -/
inductive NpVal where
  | val (x : ℝ)
  | posInf
  | negInf
  | nan
  deriving DecidableEq

/-- Numpy float division `a / b`: for a nonzero denominator it is exact real
division; for a zero denominator numpy produces `+inf` for a positive
numerator, `-inf` for a negative numerator, and NaN only for `0/0`. -/
def npDiv (a b : ℝ) : NpVal :=
  if b = 0 then (if 0 < a then NpVal.posInf else if a < 0 then NpVal.negInf else NpVal.nan)
  else NpVal.val (a / b)

/-- Elementwise `bsw_to_wor` (wor.py lines 14-19): asserts every element of
the input lies in `[0,1]` (the assert raises otherwise, modelled as `none`),
then returns `bsw/(1-bsw)` elementwise under numpy division semantics. -/
def bsw_to_wor_np (bs : List ℝ) : Option (List NpVal) :=
  if ∀ b ∈ bs, 0 ≤ b ∧ b ≤ 1 then some (bs.map (fun b => npDiv b (1 - b))) else none

/-- Elementwise `wor_to_bsw` (wor.py lines 21-26): asserts every element of
the input is nonnegative (modelled as `none` on failure), then returns
`wor/(wor+1)` elementwise under numpy division semantics. -/
def wor_to_bsw_np (ws : List ℝ) : Option (List NpVal) :=
  if ∀ w ∈ ws, 0 ≤ w then some (ws.map (fun w => npDiv w (w + 1))) else none

lemma wor_to_bsw_nonneg {w : ℝ} (hw : 0 ≤ w) : 0 ≤ wor_to_bsw w :=
  div_nonneg hw (by linarith)

lemma wor_to_bsw_lt_one {w : ℝ} (hw : 0 ≤ w) : wor_to_bsw w < 1 := by
  unfold wor_to_bsw
  rw [div_lt_one (by linarith)]
  linarith

lemma wor_to_bsw_zero : wor_to_bsw 0 = 0 := by
  simp [wor_to_bsw]

/-- Model of `np.gradient` of a one-dimensional array `y` of length `L`
(wor.py line 36): forward difference at index `0`, backward difference at
index `L-1`, centered difference elsewhere. -/
def npGrad (y : ℕ → ℝ) (L : ℕ) (i : ℕ) : ℝ :=
  if i = 0 then y 1 - y 0
  else if i = L - 1 then y (L - 1) - y (L - 2)
  else (y (i + 1) - y (i - 1)) / 2

/-- The stateful core of `wor_forecast` (wor.py lines 40-73): the pair
`(oil_cum i, water_cum i)`. Step 0 uses the initial condition
`wor[0] = wor_i`; step `i+1` applies the recurrence
`wor[i+1] = exp(slope * oil_cum[i]) * wor_i` and accumulates
`rate * delta_time` into the cumulative volumes, where
`delta_time = np.gradient(time_array)` with `time_array` of length `T`. -/
def worStep (T : ℕ) (t q : ℕ → ℝ) (m w0 : ℝ) : ℕ → ℝ × ℝ
  | 0 =>
      (q 0 * (1 - wor_to_bsw w0) * npGrad t T 0,
       q 0 * wor_to_bsw w0 * npGrad t T 0)
  | i + 1 =>
      ((worStep T t q m w0 i).1 +
         q (i + 1) * (1 - wor_to_bsw (Real.exp (m * (worStep T t q m w0 i).1) * w0)) *
           npGrad t T (i + 1),
       (worStep T t q m w0 i).2 +
         q (i + 1) * wor_to_bsw (Real.exp (m * (worStep T t q m w0 i).1) * w0) *
           npGrad t T (i + 1))

/-- The `wor` column of `wor_forecast` (wor.py lines 42 and 66). -/
def worCol (T : ℕ) (t q : ℕ → ℝ) (m w0 : ℝ) : ℕ → ℝ
  | 0 => w0
  | i + 1 => Real.exp (m * (worStep T t q m w0 i).1) * w0

/-- The `bsw` column (wor.py lines 49 and 68). -/
def bswCol (T : ℕ) (t q : ℕ → ℝ) (m w0 : ℝ) (i : ℕ) : ℝ :=
  wor_to_bsw (worCol T t q m w0 i)

/-- The `wor_1` column (wor.py lines 46 and 67): `wor + 1`. -/
def wor_1Col (T : ℕ) (t q : ℕ → ℝ) (m w0 : ℝ) (i : ℕ) : ℝ :=
  worCol T t q m w0 i + 1

/-- The `oil_rate` column (wor.py lines 52 and 69). -/
def oil_rateCol (T : ℕ) (t q : ℕ → ℝ) (m w0 : ℝ) (i : ℕ) : ℝ :=
  q i * (1 - bswCol T t q m w0 i)

/-- The `water_rate` column (wor.py lines 54 and 70). -/
def water_rateCol (T : ℕ) (t q : ℕ → ℝ) (m w0 : ℝ) (i : ℕ) : ℝ :=
  q i * bswCol T t q m w0 i

/-- The `oil_cum` column (wor.py lines 57 and 71). -/
def oil_cumCol (T : ℕ) (t q : ℕ → ℝ) (m w0 : ℝ) (i : ℕ) : ℝ :=
  (worStep T t q m w0 i).1

/-- The `water_cum` column (wor.py lines 60 and 72). -/
def water_cumCol (T : ℕ) (t q : ℕ → ℝ) (m w0 : ℝ) (i : ℕ) : ℝ :=
  (worStep T t q m w0 i).2

/-- The `fluid_cum` column (wor.py lines 63 and 73): at step 0 it is
`fluid_rate[0] * delta_time[0]`; at later steps `water_cum[i] + oil_cum[i]`. -/
def fluid_cumCol (T : ℕ) (t q : ℕ → ℝ) (m w0 : ℝ) : ℕ → ℝ
  | 0 => q 0 * npGrad t T 0
  | i + 1 => (worStep T t q m w0 (i + 1)).2 + (worStep T t q m w0 (i + 1)).1

/-- Python truthiness of an optional float limit argument: `None` and `0.0`
are falsy, every other float is truthy (wor.py lines 74, 78, 82). -/
def truthy : Option ℝ → Prop
  | none => False
  | some x => x ≠ 0

/-- The stopping test executed after the body of loop iteration `i`
(wor.py lines 74-84): the three limits are tested in the fixed order
rate limit, cumulative limit, WOR limit, each only when truthy. -/
def checkStop (T : ℕ) (t q : ℕ → ℝ) (m w0 : ℝ) (rl cl wl : Option ℝ) (i : ℕ) : Bool :=
  if truthy rl ∧ oil_rateCol T t q m w0 i ≤ rl.getD 0 then true
  else if truthy cl ∧ cl.getD 0 ≤ oil_cumCol T t q m w0 i then true
  else if truthy wl ∧ wl.getD 0 ≤ worCol T t q m w0 i then true
  else false

/-- The last value taken by the loop index of wor.py line 65 when the loop
is entered at index `i`: the loop runs while `i < T - 1`, breaking at the
first index whose stopping test fires. -/
def runEnd (T : ℕ) (t q : ℕ → ℝ) (m w0 : ℝ) (rl cl wl : Option ℝ) (i : ℕ) : ℕ :=
  if checkStop T t q m w0 rl cl wl i then i
  else if i < T - 2 then runEnd T t q m w0 rl cl wl (i + 1)
  else i
  termination_by T - 2 - i
  decreasing_by omega

/-- One row of the DataFrame built at wor.py lines 86-100. -/
structure WorRow where
  oil_rate : ℝ
  water_rate : ℝ
  oil_cum : ℝ
  water_cum : ℝ
  bsw : ℝ
  wor : ℝ
  wor_1 : ℝ
  delta_time : ℝ
  fluid_rate : ℝ
  fluid_cum : ℝ

/-- Row `i` of the forecast DataFrame. -/
def rowAt (T : ℕ) (t q : ℕ → ℝ) (m w0 : ℝ) (i : ℕ) : WorRow :=
  { oil_rate := oil_rateCol T t q m w0 i
    water_rate := water_rateCol T t q m w0 i
    oil_cum := oil_cumCol T t q m w0 i
    water_cum := water_cumCol T t q m w0 i
    bsw := bswCol T t q m w0 i
    wor := worCol T t q m w0 i
    wor_1 := wor_1Col T t q m w0 i
    delta_time := npGrad t T i
    fluid_rate := q i
    fluid_cum := fluid_cumCol T t q m w0 i }

/-- `wor_forecast` (wor.py lines 28-104). For `T ≤ 2` the call raises (for
`T ≤ 1` `np.gradient` rejects the array; for `T = 2` the loop body never
runs and the loop index used by the final truncation `[:i+1]` is unbound),
modelled as `none`. Otherwise the loop enters at index 1 and the returned
frame holds rows `0 .. i` inclusive, where `i` is the final loop index. -/
def wor_forecast (T : ℕ) (t q : ℕ → ℝ) (m w0 : ℝ) (rl cl wl : Option ℝ) :
    Option (List WorRow) :=
  if T < 3 then none
  else some ((List.range (runEnd T t q m w0 rl cl wl 1 + 1)).map (rowAt T t q m w0))

/-- Number of rows of the truncated run (for `T ≥ 3`). -/
def runLen (T : ℕ) (t q : ℕ → ℝ) (m w0 : ℝ) (rl cl wl : Option ℝ) : ℕ :=
  runEnd T t q m w0 rl cl wl 1 + 1

/-- Model of `np.diff(y, prepend=0)`: the step-wise increment of `y`, the
first increment measured against zero. -/
def diff0 (y : ℕ → ℝ) : ℕ → ℝ
  | 0 => y 0
  | i + 1 => y (i + 1) - y i

/-- The `oil_volume` column derived in `Wor.forecast` (wor.py line 236):
`np.gradient` of the truncated `oil_cum` series. -/
def oil_volumeCol (T : ℕ) (t q : ℕ → ℝ) (m w0 : ℝ) (rl cl wl : Option ℝ) (i : ℕ) : ℝ :=
  npGrad (oil_cumCol T t q m w0) (runLen T t q m w0 rl cl wl) i

/-- The `water_volume` column derived in `Wor.forecast` (wor.py line 237):
`np.gradient` of the truncated `water_cum` series. -/
def water_volumeCol (T : ℕ) (t q : ℕ → ℝ) (m w0 : ℝ) (rl cl wl : Option ℝ) (i : ℕ) : ℝ :=
  npGrad (water_cumCol T t q m w0) (runLen T t q m w0 rl cl wl) i

/-- The gas columns `(gas_cum, gas_volume, gas_rate)` derived in
`Wor.forecast` (wor.py lines 241-254), as functions of the row index, given
the truncated run's `oil_cum`, `water_cum` and `delta_time` columns. When
both `gor` and `glr` are `None` all three columns are zero; when one of them
is not `None` but both are falsy (e.g. `gor = 0`), no gas column is created
at all, modelled as `none`. In the `gor` branch `gas_volume` is
`np.diff(gas_cum, prepend=0)`; in the `glr` branch the code additionally
divides that difference by `delta_time`. -/
def gasCols (gor glr : Option ℝ) (oc wc dt : ℕ → ℝ) :
    Option ((ℕ → ℝ) × (ℕ → ℝ) × (ℕ → ℝ)) :=
  if gor.isSome ∨ glr.isSome then
    if truthy gor then
      some (fun i => oc i * gor.getD 0,
            fun i => diff0 (fun j => oc j * gor.getD 0) i,
            fun i => diff0 (fun j => oc j * gor.getD 0) i / dt i)
    else if truthy glr then
      some (fun i => (oc i + wc i) * glr.getD 0,
            fun i => diff0 (fun j => (oc j + wc j) * glr.getD 0) i / dt i,
            fun i => diff0 (fun j => (oc j + wc j) * glr.getD 0) i / dt i / dt i)
    else none
  else some (fun _ => 0, fun _ => 0, fun _ => 0)

lemma one_le_exp_of_nonneg {x : ℝ} (h : 0 ≤ x) : 1 ≤ Real.exp x := by
  have := Real.add_one_le_exp x
  linarith

lemma one_lt_exp_of_pos {x : ℝ} (h : 0 < x) : 1 < Real.exp x := by
  rw [← Real.exp_zero]
  exact Real.exp_lt_exp.mpr h

lemma oil_cum_zero (T : ℕ) (t q : ℕ → ℝ) (m w0 : ℝ) :
    oil_cumCol T t q m w0 0 = q 0 * (1 - wor_to_bsw w0) * npGrad t T 0 := rfl

lemma oil_cum_succ (T : ℕ) (t q : ℕ → ℝ) (m w0 : ℝ) (i : ℕ) :
    oil_cumCol T t q m w0 (i + 1) =
      oil_cumCol T t q m w0 i +
        q (i + 1) * (1 - wor_to_bsw (worCol T t q m w0 (i + 1))) * npGrad t T (i + 1) := rfl

lemma water_cum_zero (T : ℕ) (t q : ℕ → ℝ) (m w0 : ℝ) :
    water_cumCol T t q m w0 0 = q 0 * wor_to_bsw w0 * npGrad t T 0 := rfl

lemma water_cum_succ (T : ℕ) (t q : ℕ → ℝ) (m w0 : ℝ) (i : ℕ) :
    water_cumCol T t q m w0 (i + 1) =
      water_cumCol T t q m w0 i +
        q (i + 1) * wor_to_bsw (worCol T t q m w0 (i + 1)) * npGrad t T (i + 1) := rfl

lemma worCol_succ (T : ℕ) (t q : ℕ → ℝ) (m w0 : ℝ) (i : ℕ) :
    worCol T t q m w0 (i + 1) = Real.exp (m * oil_cumCol T t q m w0 i) * w0 := rfl

lemma fluid_cum_zero_eq (T : ℕ) (t q : ℕ → ℝ) (m w0 : ℝ) :
    fluid_cumCol T t q m w0 0 = oil_cumCol T t q m w0 0 + water_cumCol T t q m w0 0 := by
  show q 0 * npGrad t T 0 =
    q 0 * (1 - wor_to_bsw w0) * npGrad t T 0 + q 0 * wor_to_bsw w0 * npGrad t T 0
  ring

lemma fluid_cum_succ_eq (T : ℕ) (t q : ℕ → ℝ) (m w0 : ℝ) (i : ℕ) :
    fluid_cumCol T t q m w0 (i + 1) =
      oil_cumCol T t q m w0 (i + 1) + water_cumCol T t q m w0 (i + 1) := by
  show (worStep T t q m w0 (i + 1)).2 + (worStep T t q m w0 (i + 1)).1 =
    (worStep T t q m w0 (i + 1)).1 + (worStep T t q m w0 (i + 1)).2
  ring

lemma worCol_nonneg (T : ℕ) (t q : ℕ → ℝ) (m : ℝ) {w0 : ℝ} (hw : 0 ≤ w0) :
    ∀ i, 0 ≤ worCol T t q m w0 i := by
  intro i
  cases i with
  | zero => exact hw
  | succ n => exact mul_nonneg (Real.exp_nonneg _) hw

lemma bswCol_nonneg (T : ℕ) (t q : ℕ → ℝ) (m : ℝ) {w0 : ℝ} (hw : 0 ≤ w0) (i : ℕ) :
    0 ≤ bswCol T t q m w0 i :=
  wor_to_bsw_nonneg (worCol_nonneg T t q m hw i)

lemma bswCol_lt_one (T : ℕ) (t q : ℕ → ℝ) (m : ℝ) {w0 : ℝ} (hw : 0 ≤ w0) (i : ℕ) :
    bswCol T t q m w0 i < 1 :=
  wor_to_bsw_lt_one (worCol_nonneg T t q m hw i)

lemma npGrad_nonneg {t : ℕ → ℝ} (ht : Monotone t) (T i : ℕ) : 0 ≤ npGrad t T i := by
  unfold npGrad
  split_ifs
  · exact sub_nonneg.mpr (ht (by omega))
  · exact sub_nonneg.mpr (ht (by omega))
  · exact div_nonneg (sub_nonneg.mpr (ht (by omega))) (by norm_num)

lemma oil_cum_mono (T : ℕ) {t q : ℕ → ℝ} (m : ℝ) {w0 : ℝ} (ht : Monotone t)
    (hq : ∀ i, 0 ≤ q i) (hw : 0 ≤ w0) (i : ℕ) :
    oil_cumCol T t q m w0 i ≤ oil_cumCol T t q m w0 (i + 1) := by
  rw [oil_cum_succ]
  have h1 : 0 ≤ q (i + 1) * (1 - wor_to_bsw (worCol T t q m w0 (i + 1))) * npGrad t T (i + 1) := by
    have hb := wor_to_bsw_lt_one (worCol_nonneg T t q m hw (i + 1))
    exact mul_nonneg (mul_nonneg (hq _) (by linarith)) (npGrad_nonneg ht T _)
  linarith

lemma water_cum_mono (T : ℕ) {t q : ℕ → ℝ} (m : ℝ) {w0 : ℝ} (ht : Monotone t)
    (hq : ∀ i, 0 ≤ q i) (hw : 0 ≤ w0) (i : ℕ) :
    water_cumCol T t q m w0 i ≤ water_cumCol T t q m w0 (i + 1) := by
  rw [water_cum_succ]
  have h1 : 0 ≤ q (i + 1) * wor_to_bsw (worCol T t q m w0 (i + 1)) * npGrad t T (i + 1) :=
    mul_nonneg (mul_nonneg (hq _) (wor_to_bsw_nonneg (worCol_nonneg T t q m hw _)))
      (npGrad_nonneg ht T _)
  linarith

lemma oil_cum_nonneg (T : ℕ) {t q : ℕ → ℝ} (m : ℝ) {w0 : ℝ} (ht : Monotone t)
    (hq : ∀ i, 0 ≤ q i) (hw : 0 ≤ w0) : ∀ i, 0 ≤ oil_cumCol T t q m w0 i := by
  intro i
  induction i with
  | zero =>
      rw [oil_cum_zero]
      have hb := wor_to_bsw_lt_one hw
      exact mul_nonneg (mul_nonneg (hq 0) (by linarith)) (npGrad_nonneg ht T 0)
  | succ n ih => exact le_trans ih (oil_cum_mono T m ht hq hw n)

lemma wor_mono (T : ℕ) {t q : ℕ → ℝ} {m w0 : ℝ} (ht : Monotone t)
    (hq : ∀ i, 0 ≤ q i) (hw : 0 ≤ w0) (hm : 0 ≤ m) (i : ℕ) :
    worCol T t q m w0 i ≤ worCol T t q m w0 (i + 1) := by
  cases i with
  | zero =>
      rw [worCol_succ]
      have h1 : 1 ≤ Real.exp (m * oil_cumCol T t q m w0 0) :=
        one_le_exp_of_nonneg (mul_nonneg hm (oil_cum_nonneg T m ht hq hw 0))
      calc worCol T t q m w0 0 = w0 := rfl
        _ ≤ Real.exp (m * oil_cumCol T t q m w0 0) * w0 := le_mul_of_one_le_left hw h1
  | succ n =>
      rw [worCol_succ, worCol_succ]
      exact mul_le_mul_of_nonneg_right
        (Real.exp_le_exp.mpr (mul_le_mul_of_nonneg_left (oil_cum_mono T m ht hq hw n) hm)) hw

lemma oil_cum_strict (T : ℕ) {t q : ℕ → ℝ} (m : ℝ) {w0 : ℝ}
    (hdt : ∀ i, 0 < npGrad t T i) (hq : ∀ i, 0 < q i) (hw : 0 ≤ w0) (i : ℕ) :
    oil_cumCol T t q m w0 i < oil_cumCol T t q m w0 (i + 1) := by
  rw [oil_cum_succ]
  have hb := wor_to_bsw_lt_one (worCol_nonneg T t q m hw (i + 1))
  have h1 : 0 < q (i + 1) * (1 - wor_to_bsw (worCol T t q m w0 (i + 1))) * npGrad t T (i + 1) :=
    mul_pos (mul_pos (hq _) (by linarith)) (hdt _)
  linarith

lemma oil_cum_pos (T : ℕ) {t q : ℕ → ℝ} (m : ℝ) {w0 : ℝ}
    (hdt : ∀ i, 0 < npGrad t T i) (hq : ∀ i, 0 < q i) (hw : 0 ≤ w0) :
    0 < oil_cumCol T t q m w0 0 := by
  rw [oil_cum_zero]
  have hb := wor_to_bsw_lt_one hw
  exact mul_pos (mul_pos (hq 0) (by linarith)) (hdt 0)

lemma wor_strict (T : ℕ) {t q : ℕ → ℝ} {m w0 : ℝ}
    (hdt : ∀ i, 0 < npGrad t T i) (hq : ∀ i, 0 < q i) (hw : 0 < w0) (hm : 0 < m) (i : ℕ) :
    worCol T t q m w0 i < worCol T t q m w0 (i + 1) := by
  cases i with
  | zero =>
      rw [worCol_succ]
      have h1 : 1 < Real.exp (m * oil_cumCol T t q m w0 0) :=
        one_lt_exp_of_pos (mul_pos hm (oil_cum_pos T m hdt hq hw.le))
      calc worCol T t q m w0 0 = w0 := rfl
        _ < Real.exp (m * oil_cumCol T t q m w0 0) * w0 := (lt_mul_iff_one_lt_left hw).mpr h1
  | succ n =>
      rw [worCol_succ, worCol_succ]
      exact mul_lt_mul_of_pos_right
        (Real.exp_lt_exp.mpr (mul_lt_mul_of_pos_left (oil_cum_strict T m hdt hq hw.le n) hm)) hw

lemma runEnd_unfold (T : ℕ) (t q : ℕ → ℝ) (m w0 : ℝ) (rl cl wl : Option ℝ) (i : ℕ) :
    runEnd T t q m w0 rl cl wl i =
      if checkStop T t q m w0 rl cl wl i then i
      else if i < T - 2 then runEnd T t q m w0 rl cl wl (i + 1)
      else i := by
  rw [runEnd]

lemma runEnd_ge (T : ℕ) (t q : ℕ → ℝ) (m w0 : ℝ) (rl cl wl : Option ℝ) :
    ∀ i, i ≤ runEnd T t q m w0 rl cl wl i := by
  have H : ∀ n i, T - 2 - i ≤ n → i ≤ runEnd T t q m w0 rl cl wl i := by
    intro n
    induction n with
    | zero =>
        intro i hn
        rw [runEnd_unfold]
        split_ifs with h1 h2
        · exact le_rfl
        · omega
        · exact le_rfl
    | succ n ih =>
        intro i hn
        rw [runEnd_unfold]
        split_ifs with h1 h2
        · exact le_rfl
        · exact le_trans (by omega) (ih (i + 1) (by omega))
        · exact le_rfl
  intro i
  exact H (T - 2 - i) i le_rfl

lemma runEnd_le (T : ℕ) (t q : ℕ → ℝ) (m w0 : ℝ) (rl cl wl : Option ℝ) :
    ∀ i, i ≤ T - 2 → runEnd T t q m w0 rl cl wl i ≤ T - 2 := by
  have H : ∀ n i, T - 2 - i ≤ n → i ≤ T - 2 → runEnd T t q m w0 rl cl wl i ≤ T - 2 := by
    intro n
    induction n with
    | zero =>
        intro i hn hi
        rw [runEnd_unfold]
        split_ifs with h1 h2
        · exact hi
        · omega
        · exact hi
    | succ n ih =>
        intro i hn hi
        rw [runEnd_unfold]
        split_ifs with h1 h2
        · exact hi
        · exact ih (i + 1) (by omega) (by omega)
        · exact hi
  intro i hi
  exact H (T - 2 - i) i le_rfl hi

lemma runEnd_of_noStop (T : ℕ) (t q : ℕ → ℝ) (m w0 : ℝ) (rl cl wl : Option ℝ) :
    ∀ i, i ≤ T - 2 →
      (∀ j, i ≤ j → j ≤ T - 2 → checkStop T t q m w0 rl cl wl j = false) →
      runEnd T t q m w0 rl cl wl i = T - 2 := by
  have H : ∀ n i, T - 2 - i ≤ n → i ≤ T - 2 →
      (∀ j, i ≤ j → j ≤ T - 2 → checkStop T t q m w0 rl cl wl j = false) →
      runEnd T t q m w0 rl cl wl i = T - 2 := by
    intro n
    induction n with
    | zero =>
        intro i hn hi hstop
        rw [runEnd_unfold, hstop i le_rfl hi]
        simp only [Bool.false_eq_true, if_false]
        rw [if_neg (by omega)]
        omega
    | succ n ih =>
        intro i hn hi hstop
        rw [runEnd_unfold, hstop i le_rfl hi]
        simp only [Bool.false_eq_true, if_false]
        by_cases hlt : i < T - 2
        · rw [if_pos hlt]
          exact ih (i + 1) (by omega) (by omega) (fun j hj1 hj2 => hstop j (by omega) hj2)
        · rw [if_neg hlt]
          omega
  intro i hi hstop
  exact H (T - 2 - i) i le_rfl hi hstop

lemma runEnd_of_stop (T : ℕ) (t q : ℕ → ℝ) (m w0 : ℝ) (rl cl wl : Option ℝ) :
    ∀ i j, i ≤ j → j ≤ T - 2 → checkStop T t q m w0 rl cl wl j = true →
      (∀ k, i ≤ k → k < j → checkStop T t q m w0 rl cl wl k = false) →
      runEnd T t q m w0 rl cl wl i = j := by
  have H : ∀ n i j, j - i ≤ n → i ≤ j → j ≤ T - 2 →
      checkStop T t q m w0 rl cl wl j = true →
      (∀ k, i ≤ k → k < j → checkStop T t q m w0 rl cl wl k = false) →
      runEnd T t q m w0 rl cl wl i = j := by
    intro n
    induction n with
    | zero =>
        intro i j hn hij hj hstop hprev
        have hij2 : i = j := by omega
        subst hij2
        rw [runEnd_unfold, hstop]
        simp
    | succ n ih =>
        intro i j hn hij hj hstop hprev
        by_cases hij2 : i = j
        · subst hij2
          rw [runEnd_unfold, hstop]
          simp
        · rw [runEnd_unfold, hprev i le_rfl (by omega)]
          simp only [Bool.false_eq_true, if_false]
          rw [if_pos (by omega)]
          exact ih (i + 1) j (by omega) (by omega) hj hstop
            (fun k hk1 hk2 => hprev k (by omega) hk2)
  intro i j hij hj hstop hprev
  exact H (j - i) i j le_rfl hij hj hstop hprev

lemma checkStop_all_none (T : ℕ) (t q : ℕ → ℝ) (m w0 : ℝ) (i : ℕ) :
    checkStop T t q m w0 none none none i = false := by
  simp [checkStop, truthy]

lemma runEnd_congr (T : ℕ) (t q : ℕ → ℝ) (m w0 : ℝ) (rl cl wl rl2 cl2 wl2 : Option ℝ)
    (hck : ∀ j, checkStop T t q m w0 rl cl wl j = checkStop T t q m w0 rl2 cl2 wl2 j) :
    ∀ i, runEnd T t q m w0 rl cl wl i = runEnd T t q m w0 rl2 cl2 wl2 i := by
  have H : ∀ n i, T - 2 - i ≤ n →
      runEnd T t q m w0 rl cl wl i = runEnd T t q m w0 rl2 cl2 wl2 i := by
    intro n
    induction n with
    | zero =>
        intro i hn
        rw [runEnd_unfold T t q m w0 rl cl wl i, runEnd_unfold T t q m w0 rl2 cl2 wl2 i,
          hck i]
        split_ifs with h1 h2
        · rfl
        · omega
        · rfl
    | succ n ih =>
        intro i hn
        rw [runEnd_unfold T t q m w0 rl cl wl i, runEnd_unfold T t q m w0 rl2 cl2 wl2 i,
          hck i]
        split_ifs with h1 h2
        · rfl
        · exact ih (i + 1) (by omega)
        · rfl
  intro i
  exact H (T - 2 - i) i le_rfl

end Dcapy

namespace Dcapy

/-- C7: `bsw_to_wor` and `wor_to_bsw` are exact inverses on their valid
domains: for `bsw ∈ [0,1)`, `wor_to_bsw (bsw_to_wor bsw) = bsw`, and for
`wor ≥ 0`, `bsw_to_wor (wor_to_bsw wor) = wor` (exactly, over the reals, so
in particular within any floating tolerance). -/
theorem claim7_round_trip :
    (∀ b : ℝ, 0 ≤ b → b < 1 → wor_to_bsw (bsw_to_wor b) = b) ∧
    (∀ w : ℝ, 0 ≤ w → bsw_to_wor (wor_to_bsw w) = w) := by
  constructor
  · intro b _ hb1
    have h1 : (1 : ℝ) - b ≠ 0 := by linarith
    unfold wor_to_bsw bsw_to_wor
    field_simp
  · intro w hw
    have h1 : w + 1 ≠ 0 := by linarith
    unfold wor_to_bsw bsw_to_wor
    have h2 : (1 : ℝ) - w / (w + 1) = 1 / (w + 1) := by
      field_simp
    rw [h2]
    field_simp

/-- Witness for C7 at concrete points `bsw = 1/2` and `wor = 3`. -/
theorem claim7_round_trip_witness :
    wor_to_bsw (bsw_to_wor (1/2)) = (1/2 : ℝ) ∧
    bsw_to_wor (wor_to_bsw 3) = (3 : ℝ) :=
  ⟨claim7_round_trip.1 (1/2) (by norm_num) (by norm_num),
   claim7_round_trip.2 3 (by norm_num)⟩

/-- C8: `bsw_to_wor` fails (assertion error) whenever any element of its
input is outside `[0,1]`; at `bsw = 1` it does not reject, and numpy division
produces an explicit `+inf` (never NaN, since the numerator `1` is nonzero);
`wor_to_bsw` requires every element nonnegative, returns `wor/(wor+1)`
elementwise, and fails whenever any element is negative. -/
theorem claim8_domain :
    (∀ (bs : List ℝ) (b : ℝ), b ∈ bs → ¬(0 ≤ b ∧ b ≤ 1) → bsw_to_wor_np bs = none) ∧
    (bsw_to_wor_np [1] = some [NpVal.posInf]) ∧
    (∀ ws : List ℝ, (∀ w ∈ ws, 0 ≤ w) →
      wor_to_bsw_np ws = some (ws.map (fun w => NpVal.val (w / (w + 1))))) ∧
    (∀ (ws : List ℝ) (w : ℝ), w ∈ ws → w < 0 → wor_to_bsw_np ws = none) := by
  refine ⟨?_, ?_, ?_, ?_⟩
  · intro bs b hmem hbad
    unfold bsw_to_wor_np
    rw [if_neg]
    intro hall
    exact hbad (hall b hmem)
  · unfold bsw_to_wor_np
    rw [if_pos (by norm_num)]
    simp [npDiv]
  · intro ws hall
    unfold wor_to_bsw_np
    rw [if_pos hall]
    congr 1
    apply List.map_congr_left
    intro w hmem
    have hw : 0 ≤ w := hall w hmem
    unfold npDiv
    rw [if_neg (by positivity)]
  · intro ws w hmem hneg
    unfold wor_to_bsw_np
    rw [if_neg]
    intro hall
    exact absurd (hall w hmem) (by linarith)

/-- Witness for C8: the out-of-range input `[2]` is rejected by
`bsw_to_wor_np`, the valid input `[3]` is mapped by `wor_to_bsw_np`, and the
negative input `[-1]` is rejected. -/
theorem claim8_domain_witness :
    bsw_to_wor_np [2] = none ∧
    wor_to_bsw_np [3] = some [NpVal.val ((3 : ℝ) / 4)] ∧
    wor_to_bsw_np [-1] = none := by
  refine ⟨claim8_domain.1 [2] 2 (by simp) (by norm_num), ?_, ?_⟩
  · have h := claim8_domain.2.2.1 [3] (by intro w hw; simp at hw; simp [hw])
    rw [h]
    norm_num
  · exact claim8_domain.2.2.2 [-1] (-1) (by simp) (by norm_num)

/-- Unit-spaced integer time array `0, 1, 2, ...`. -/
def tUnit : ℕ → ℝ := fun i => (i : ℝ)

/-- Time array with spacing 2: `0, 2, 4, ...`. -/
def tDouble : ℕ → ℝ := fun i => 2 * (i : ℝ)

/-- Constant fluid-rate schedule of 1000. -/
def qConst : ℕ → ℝ := fun _ => 1000

/-- Linearly growing fluid-rate schedule `1000 * (i + 1)`. -/
def qLin : ℕ → ℝ := fun i => 1000 * ((i : ℝ) + 1)

lemma tUnit_mono : Monotone tUnit := fun a b h => by
  unfold tUnit
  exact_mod_cast h

lemma npGrad_tUnit {T : ℕ} (hT : 2 ≤ T) (i : ℕ) : npGrad tUnit T i = 1 := by
  unfold npGrad tUnit
  split_ifs with h1 h2
  · norm_num
  · rw [show T - 1 = (T - 2) + 1 from by omega]
    push_cast
    ring
  · rw [show i + 1 = (i - 1) + 2 from by omega]
    push_cast
    ring

lemma npGrad_tDouble {T : ℕ} (hT : 2 ≤ T) (i : ℕ) : npGrad tDouble T i = 2 := by
  unfold npGrad tDouble
  split_ifs with h1 h2
  · norm_num
  · rw [show T - 1 = (T - 2) + 1 from by omega]
    push_cast
    ring
  · rw [show i + 1 = (i - 1) + 2 from by omega]
    push_cast
    ring

lemma worCol_w0_zero (T : ℕ) (t q : ℕ → ℝ) (m : ℝ) : ∀ i, worCol T t q m 0 i = 0 := by
  intro i
  cases i with
  | zero => rfl
  | succ n =>
      rw [worCol_succ]
      exact mul_zero _

lemma water_cum_w0_zero (T : ℕ) (t q : ℕ → ℝ) (m : ℝ) :
    ∀ i, water_cumCol T t q m 0 i = 0 := by
  intro i
  induction i with
  | zero =>
      rw [water_cum_zero, wor_to_bsw_zero]
      ring
  | succ n ih =>
      rw [water_cum_succ, ih, worCol_w0_zero, wor_to_bsw_zero]
      ring

lemma oc_tUnit_qConst {T : ℕ} (hT : 2 ≤ T) (m : ℝ) :
    ∀ i, oil_cumCol T tUnit qConst m 0 i = 1000 * ((i : ℝ) + 1) := by
  intro i
  induction i with
  | zero =>
      rw [oil_cum_zero, wor_to_bsw_zero, npGrad_tUnit hT]
      show (1000 : ℝ) * (1 - 0) * 1 = 1000 * ((0 : ℕ) + 1 : ℝ)
      norm_num
  | succ n ih =>
      rw [oil_cum_succ, ih, worCol_w0_zero, wor_to_bsw_zero, npGrad_tUnit hT]
      show (1000 : ℝ) * (n + 1 : ℝ) + 1000 * (1 - 0) * 1 = 1000 * (((n + 1 : ℕ) : ℝ) + 1)
      push_cast
      ring

/-- C5: `wor_forecast` computes exactly the specified recurrence. At step 0:
`wor[0] = wor_i`, `bsw[0] = wor_to_bsw wor_i`,
`oil_rate[0] = fluid_rate[0] * (1 - bsw[0])`,
`water_rate[0] = fluid_rate[0] * bsw[0]`, and the step-0 cumulative volumes
are the step-0 rates times `delta_time[0]` (not zero). For every step
`i + 1`: `wor = wor_i * exp(slope * oil_cum[i])`, `bsw = wor_to_bsw wor`,
the rates come from `bsw` and `fluid_rate`, the cumulative volumes
accumulate `rate * delta_time`, and `fluid_cum = oil_cum + water_cum`. -/
theorem claim5_recurrence (T : ℕ) (t q : ℕ → ℝ) (m w0 : ℝ) :
    worCol T t q m w0 0 = w0 ∧
    bswCol T t q m w0 0 = wor_to_bsw w0 ∧
    oil_rateCol T t q m w0 0 = q 0 * (1 - bswCol T t q m w0 0) ∧
    water_rateCol T t q m w0 0 = q 0 * bswCol T t q m w0 0 ∧
    oil_cumCol T t q m w0 0 = oil_rateCol T t q m w0 0 * npGrad t T 0 ∧
    water_cumCol T t q m w0 0 = water_rateCol T t q m w0 0 * npGrad t T 0 ∧
    fluid_cumCol T t q m w0 0 = q 0 * npGrad t T 0 ∧
    (∀ i : ℕ,
      worCol T t q m w0 (i + 1) = w0 * Real.exp (m * oil_cumCol T t q m w0 i) ∧
      bswCol T t q m w0 (i + 1) = wor_to_bsw (worCol T t q m w0 (i + 1)) ∧
      oil_rateCol T t q m w0 (i + 1) = q (i + 1) * (1 - bswCol T t q m w0 (i + 1)) ∧
      water_rateCol T t q m w0 (i + 1) = q (i + 1) * bswCol T t q m w0 (i + 1) ∧
      oil_cumCol T t q m w0 (i + 1) =
        oil_cumCol T t q m w0 i + oil_rateCol T t q m w0 (i + 1) * npGrad t T (i + 1) ∧
      water_cumCol T t q m w0 (i + 1) =
        water_cumCol T t q m w0 i + water_rateCol T t q m w0 (i + 1) * npGrad t T (i + 1) ∧
      fluid_cumCol T t q m w0 (i + 1) =
        oil_cumCol T t q m w0 (i + 1) + water_cumCol T t q m w0 (i + 1)) := by
  refine ⟨rfl, rfl, rfl, rfl, rfl, rfl, rfl, ?_⟩
  intro i
  refine ⟨?_, rfl, rfl, rfl, rfl, rfl, fluid_cum_succ_eq T t q m w0 i⟩
  rw [worCol_succ]
  ring

/-- C6: with a non-decreasing time array, nonnegative fluid rates and a
nonnegative initial WOR, the columns `oil_cum`, `water_cum` and `fluid_cum`
are non-decreasing in the step index, and for `slope ≥ 0` so is `wor`. -/
theorem claim6_monotonicity (T : ℕ) (t q : ℕ → ℝ) (m w0 : ℝ)
    (ht : Monotone t) (hq : ∀ i, 0 ≤ q i) (hw : 0 ≤ w0) :
    (∀ i, oil_cumCol T t q m w0 i ≤ oil_cumCol T t q m w0 (i + 1)) ∧
    (∀ i, water_cumCol T t q m w0 i ≤ water_cumCol T t q m w0 (i + 1)) ∧
    (∀ i, fluid_cumCol T t q m w0 i ≤ fluid_cumCol T t q m w0 (i + 1)) ∧
    (0 ≤ m → ∀ i, worCol T t q m w0 i ≤ worCol T t q m w0 (i + 1)) := by
  refine ⟨oil_cum_mono T m ht hq hw, water_cum_mono T m ht hq hw, ?_,
    fun hm => wor_mono T ht hq hw hm⟩
  intro i
  cases i with
  | zero =>
      rw [fluid_cum_zero_eq, fluid_cum_succ_eq]
      have h1 := oil_cum_mono T m ht hq hw 0
      have h2 := water_cum_mono T m ht hq hw 0
      linarith
  | succ n =>
      rw [fluid_cum_succ_eq, fluid_cum_succ_eq]
      have h1 := oil_cum_mono T m ht hq hw (n + 1)
      have h2 := water_cum_mono T m ht hq hw (n + 1)
      linarith

/-- Witness for C6 at the concrete scenario of section 8 of the spec. -/
theorem claim6_monotonicity_witness :
    oil_cumCol 10 tUnit qConst (1/100000) (1/10) 2 ≤
      oil_cumCol 10 tUnit qConst (1/100000) (1/10) 3 ∧
    worCol 10 tUnit qConst (1/100000) (1/10) 2 ≤
      worCol 10 tUnit qConst (1/100000) (1/10) 3 := by
  have h := claim6_monotonicity 10 tUnit qConst (1/100000) (1/10) tUnit_mono
    (fun i => by norm_num [qConst]) (by norm_num)
  exact ⟨h.1 2, h.2.2.2 (by norm_num) 2⟩

/-- C9: `wor_forecast` returns normally only for time arrays of length at
least 3: for length 1 or 2 the recurrence loop body never runs and the call
fails (modelled as `none`); for `T ≥ 3` with no stopping condition triggered
the returned table has exactly `T - 1` rows, never `T`. -/
theorem claim9_run_length :
    (∀ (T : ℕ) (t q : ℕ → ℝ) (m w0 : ℝ) (rl cl wl : Option ℝ),
      T = 1 ∨ T = 2 → wor_forecast T t q m w0 rl cl wl = none) ∧
    (∀ (T : ℕ) (t q : ℕ → ℝ) (m w0 : ℝ) (rl cl wl : Option ℝ),
      3 ≤ T → (∀ j, 1 ≤ j → j ≤ T - 2 → checkStop T t q m w0 rl cl wl j = false) →
      (wor_forecast T t q m w0 rl cl wl).map List.length = some (T - 1)) := by
  constructor
  · intro T t q m w0 rl cl wl hT
    unfold wor_forecast
    rw [if_pos (by omega)]
  · intro T t q m w0 rl cl wl hT hstop
    unfold wor_forecast
    rw [if_neg (by omega)]
    rw [runEnd_of_noStop T t q m w0 rl cl wl 1 (by omega)
      (fun j hj1 hj2 => hstop j hj1 hj2)]
    have hlen : ((List.range (T - 2 + 1)).map (rowAt T t q m w0)).length = T - 1 := by
      rw [List.length_map, List.length_range]
      omega
    exact congrArg some hlen

/-- Witness for C9: a length-2 time array fails, and a length-4 run with no
limits returns exactly 3 rows. -/
theorem claim9_run_length_witness :
    wor_forecast 2 (fun i => (i : ℝ)) (fun _ => 1000) 0 0 none none none = none ∧
    (wor_forecast 4 (fun i => (i : ℝ)) (fun _ => 1000) 0 0 none none none).map
      List.length = some 3 := by
  constructor
  · exact claim9_run_length.1 2 (fun i => (i : ℝ)) (fun _ => 1000) 0 0 none none none
      (Or.inr rfl)
  · have h := claim9_run_length.2 4 (fun i => (i : ℝ)) (fun _ => 1000) 0 0 none none none
      (by norm_num) (fun j hj1 hj2 => checkStop_all_none 4 (fun i => (i : ℝ)) (fun _ => 1000) 0 0 j)
    exact h

/-- C10: a limit argument equal to `0` is treated as absent (the Python
truthiness test at wor.py lines 74, 78, 82 skips the check), so a call with
`rate_limit = 0`, `cum_limit = 0` or `wor_limit = 0` returns the same run as
a call with the corresponding limit set to `None`. -/
theorem claim10_zero_limits (T : ℕ) (t q : ℕ → ℝ) (m w0 : ℝ) (rl cl wl : Option ℝ) :
    wor_forecast T t q m w0 (some 0) cl wl = wor_forecast T t q m w0 none cl wl ∧
    wor_forecast T t q m w0 rl (some 0) wl = wor_forecast T t q m w0 rl none wl ∧
    wor_forecast T t q m w0 rl cl (some 0) = wor_forecast T t q m w0 rl cl none := by
  refine ⟨?_, ?_, ?_⟩
  · unfold wor_forecast
    by_cases hT : T < 3
    · rw [if_pos hT, if_pos hT]
    · rw [if_neg hT, if_neg hT,
        runEnd_congr T t q m w0 (some 0) cl wl none cl wl
          (fun j => by simp [checkStop, truthy]) 1]
  · unfold wor_forecast
    by_cases hT : T < 3
    · rw [if_pos hT, if_pos hT]
    · rw [if_neg hT, if_neg hT,
        runEnd_congr T t q m w0 rl (some 0) wl rl none wl
          (fun j => by simp [checkStop, truthy]) 1]
  · unfold wor_forecast
    by_cases hT : T < 3
    · rw [if_pos hT, if_pos hT]
    · rw [if_neg hT, if_neg hT,
        runEnd_congr T t q m w0 rl cl (some 0) rl cl none
          (fun j => by simp [checkStop, truthy]) 1]

/-- C4: after computing step `i` the stopping conditions are tested in the
fixed order rate limit, cumulative limit, WOR limit (first conjunct: the
ordered test fires exactly when some enabled condition holds); every
returned run has at most `T - 1` rows, so index `T - 1` is never part of
the result (second conjunct); and when `j` is the first loop index in
`1 .. T-2` whose test fires, the run is truncated to rows `0 .. j`
inclusive (third conjunct). -/
theorem claim4_stop_order (T : ℕ) (t q : ℕ → ℝ) (m w0 : ℝ) (rl cl wl : Option ℝ)
    (hT : 3 ≤ T) :
    (∀ i, checkStop T t q m w0 rl cl wl i = true ↔
      ((truthy rl ∧ oil_rateCol T t q m w0 i ≤ rl.getD 0) ∨
       (truthy cl ∧ cl.getD 0 ≤ oil_cumCol T t q m w0 i) ∨
       (truthy wl ∧ wl.getD 0 ≤ worCol T t q m w0 i))) ∧
    (∀ rows, wor_forecast T t q m w0 rl cl wl = some rows → rows.length ≤ T - 1) ∧
    (∀ j, 1 ≤ j → j ≤ T - 2 → checkStop T t q m w0 rl cl wl j = true →
      (∀ k, 1 ≤ k → k < j → checkStop T t q m w0 rl cl wl k = false) →
      wor_forecast T t q m w0 rl cl wl =
        some ((List.range (j + 1)).map (rowAt T t q m w0))) := by
  refine ⟨?_, ?_, ?_⟩
  · intro i
    unfold checkStop
    split_ifs with h1 h2 h3 <;> simp_all
  · intro rows hrows
    unfold wor_forecast at hrows
    rw [if_neg (by omega)] at hrows
    have h := runEnd_le T t q m w0 rl cl wl 1 (by omega)
    have hlen : rows.length = runEnd T t q m w0 rl cl wl 1 + 1 := by
      have := Option.some_injective _ hrows
      rw [← this]
      simp
    omega
  · intro j hj1 hj2 hstop hprev
    unfold wor_forecast
    rw [if_neg (by omega), runEnd_of_stop T t q m w0 rl cl wl 1 j hj1 hj2 hstop hprev]

/-- Witness for C4: with `cum_limit = 2000` on a constant-rate unit-time run
of length 5 the cumulative limit fires at the first loop index `j = 1`, and
the returned run is truncated to rows 0 and 1. -/
theorem claim4_stop_order_witness :
    wor_forecast 5 tUnit qConst 0 0 none (some 2000) none =
      some ((List.range 2).map (rowAt 5 tUnit qConst 0 0)) := by
  have hoc1 : oil_cumCol 5 tUnit qConst 0 0 1 = 2000 := by
    rw [oc_tUnit_qConst (show (2 : ℕ) ≤ 5 by norm_num) 0 1]
    norm_num
  have hstop : checkStop 5 tUnit qConst 0 0 none (some 2000) none 1 = true := by
    unfold checkStop
    rw [if_neg (by simp [truthy]), if_pos ⟨by norm_num [truthy], by rw [hoc1]; simp⟩]
  exact (claim4_stop_order 5 tUnit qConst 0 0 none (some 2000) none (by norm_num)).2.2 1
    (by norm_num) (by norm_num) hstop (fun k hk1 hk2 => absurd hk2 (by omega))

lemma run_c1 : wor_forecast 10 tUnit qConst (1/100000) (1/10) none none none =
    some ((List.range 9).map (rowAt 10 tUnit qConst (1/100000) (1/10))) := by
  unfold wor_forecast
  rw [if_neg (by norm_num),
    runEnd_of_noStop 10 tUnit qConst (1/100000) (1/10) none none none 1 (by norm_num)
      (fun j hj1 hj2 => checkStop_all_none 10 tUnit qConst (1/100000) (1/10) j)]

/-- C1 (amended): for `wor_i = 0.1`, `slope = 0.00001`, constant
`fluid_rate = 1000` over 10 unit time steps and no limits, `wor_forecast`
returns the run of rows `0 .. 8` (9 rows, the full evaluated range: the
final time index is never evaluated by the loop), the `wor` column is
strictly increasing across the run, `oil_rate[0] = 1000 * (1 - wor_to_bsw 0.1)`,
and with neither GOR nor GLR set the derived gas columns are identically 0. -/
theorem claim1_scenario :
    wor_forecast 10 tUnit qConst (1/100000) (1/10) none none none =
      some ((List.range 9).map (rowAt 10 tUnit qConst (1/100000) (1/10))) ∧
    (∀ i, i < 8 → worCol 10 tUnit qConst (1/100000) (1/10) i <
      worCol 10 tUnit qConst (1/100000) (1/10) (i + 1)) ∧
    oil_rateCol 10 tUnit qConst (1/100000) (1/10) 0 = 1000 * (1 - wor_to_bsw (1/10)) ∧
    gasCols none none (oil_cumCol 10 tUnit qConst (1/100000) (1/10))
      (water_cumCol 10 tUnit qConst (1/100000) (1/10)) (npGrad tUnit 10) =
      some (fun _ => 0, fun _ => 0, fun _ => 0) := by
  refine ⟨run_c1, ?_, rfl, ?_⟩
  · intro i _
    exact wor_strict 10
      (fun j => by rw [npGrad_tUnit (show (2 : ℕ) ≤ 10 by norm_num)]; norm_num)
      (fun j => by norm_num [qConst]) (by norm_num) (by norm_num) i
  · unfold gasCols
    rw [if_neg (by simp)]

/-- Witness for C1 (amended): the strict `wor` increase at the first step. -/
theorem claim1_scenario_witness :
    worCol 10 tUnit qConst (1/100000) (1/10) 0 <
      worCol 10 tUnit qConst (1/100000) (1/10) 1 :=
  claim1_scenario.2.1 0 (by norm_num)

/-- Counterexample to C1 as stated: the returned run has 9 rows, not 10 —
the recurrence loop never evaluates the final time index, so the run does
not cover every time index of the length-10 time array. -/
theorem claim1_counterexample :
    (wor_forecast 10 tUnit qConst (1/100000) (1/10) none none none).map List.length ≠
      some 10 ∧
    (wor_forecast 10 tUnit qConst (1/100000) (1/10) none none none).map List.length =
      some 9 := by
  have h9 : (wor_forecast 10 tUnit qConst (1/100000) (1/10) none none none).map
      List.length = some 9 := by
    rw [run_c1]
    simp
  exact ⟨by rw [h9]; simp, h9⟩

lemma oc_qLin_zero : oil_cumCol 4 tUnit qLin 0 0 0 = 1000 := by
  rw [oil_cum_zero, wor_to_bsw_zero, npGrad_tUnit (show (2 : ℕ) ≤ 4 by norm_num)]
  norm_num [qLin]

lemma oc_qLin_one : oil_cumCol 4 tUnit qLin 0 0 1 = 3000 := by
  have h := oil_cum_succ 4 tUnit qLin 0 0 0
  rw [worCol_w0_zero, wor_to_bsw_zero, npGrad_tUnit (show (2 : ℕ) ≤ 4 by norm_num),
    oc_qLin_zero] at h
  norm_num [qLin] at h
  exact h

lemma oc_qLin_two : oil_cumCol 4 tUnit qLin 0 0 2 = 6000 := by
  have h := oil_cum_succ 4 tUnit qLin 0 0 1
  rw [worCol_w0_zero, wor_to_bsw_zero, npGrad_tUnit (show (2 : ℕ) ≤ 4 by norm_num),
    oc_qLin_one] at h
  norm_num [qLin] at h
  exact h

/-- C2 (amended): the derived `oil_volume`/`water_volume` columns are the
centered numerical gradient (`np.gradient`) of the truncated cumulative
series: the first value is `cum[1] - cum[0]` (a forward difference, not the
first cumulative value), interior values are `(cum[i+1] - cum[i-1]) / 2`,
and the last value is a backward difference. -/
theorem claim2_volume_columns (T : ℕ) (t q : ℕ → ℝ) (m w0 : ℝ) (rl cl wl : Option ℝ) :
    (oil_volumeCol T t q m w0 rl cl wl 0 =
      oil_cumCol T t q m w0 1 - oil_cumCol T t q m w0 0) ∧
    (water_volumeCol T t q m w0 rl cl wl 0 =
      water_cumCol T t q m w0 1 - water_cumCol T t q m w0 0) ∧
    (∀ i, 0 < i → i < runLen T t q m w0 rl cl wl - 1 →
      oil_volumeCol T t q m w0 rl cl wl i =
        (oil_cumCol T t q m w0 (i + 1) - oil_cumCol T t q m w0 (i - 1)) / 2 ∧
      water_volumeCol T t q m w0 rl cl wl i =
        (water_cumCol T t q m w0 (i + 1) - water_cumCol T t q m w0 (i - 1)) / 2) ∧
    (2 ≤ runLen T t q m w0 rl cl wl →
      oil_volumeCol T t q m w0 rl cl wl (runLen T t q m w0 rl cl wl - 1) =
        oil_cumCol T t q m w0 (runLen T t q m w0 rl cl wl - 1) -
          oil_cumCol T t q m w0 (runLen T t q m w0 rl cl wl - 2) ∧
      water_volumeCol T t q m w0 rl cl wl (runLen T t q m w0 rl cl wl - 1) =
        water_cumCol T t q m w0 (runLen T t q m w0 rl cl wl - 1) -
          water_cumCol T t q m w0 (runLen T t q m w0 rl cl wl - 2)) := by
  refine ⟨?_, ?_, ?_, ?_⟩
  · unfold oil_volumeCol npGrad
    rw [if_pos rfl]
  · unfold water_volumeCol npGrad
    rw [if_pos rfl]
  · intro i h0 hL
    constructor
    · unfold oil_volumeCol npGrad
      rw [if_neg (by omega), if_neg (by omega)]
    · unfold water_volumeCol npGrad
      rw [if_neg (by omega), if_neg (by omega)]
  · intro hL
    constructor
    · unfold oil_volumeCol npGrad
      rw [if_neg (by omega), if_pos rfl]
    · unfold water_volumeCol npGrad
      rw [if_neg (by omega), if_pos rfl]

lemma runLen_qLin : runLen 4 tUnit qLin 0 0 none none none = 3 := by
  unfold runLen
  rw [runEnd_of_noStop 4 tUnit qLin 0 0 none none none 1 (by norm_num)
    (fun j hj1 hj2 => checkStop_all_none 4 tUnit qLin 0 0 j)]

/-- Witness for C2 (amended): the centered interior formula at row 1 of the
concrete length-4 linear-rate run. -/
theorem claim2_volume_columns_witness :
    oil_volumeCol 4 tUnit qLin 0 0 none none none 1 =
      (oil_cumCol 4 tUnit qLin 0 0 2 - oil_cumCol 4 tUnit qLin 0 0 0) / 2 := by
  have h := ((claim2_volume_columns 4 tUnit qLin 0 0 none none none).2.2.1 1 (by norm_num)
    (by rw [runLen_qLin]; norm_num)).1
  norm_num at h
  exact h

/-- Counterexample to C2 as stated: on the length-4 run with fluid rates
`1000 * (i+1)`, the first `oil_volume` value is 2000 while the first
cumulative value is 1000, so `oil_volume` is not the step-wise increment of
`oil_cum` (whose first value would be `oil_cum[0]` itself). -/
theorem claim2_counterexample :
    oil_volumeCol 4 tUnit qLin 0 0 none none none 0 = 2000 ∧
    oil_cumCol 4 tUnit qLin 0 0 0 = 1000 ∧
    oil_volumeCol 4 tUnit qLin 0 0 none none none 0 ≠ oil_cumCol 4 tUnit qLin 0 0 0 := by
  have hov : oil_volumeCol 4 tUnit qLin 0 0 none none none 0 = 2000 := by
    unfold oil_volumeCol npGrad
    rw [if_pos rfl, oc_qLin_one, oc_qLin_zero]
    norm_num
  exact ⟨hov, oc_qLin_zero, by rw [hov, oc_qLin_zero]; norm_num⟩

lemma oc_tDouble_zero : oil_cumCol 4 tDouble qConst 0 0 0 = 2000 := by
  rw [oil_cum_zero, wor_to_bsw_zero, npGrad_tDouble (show (2 : ℕ) ≤ 4 by norm_num)]
  norm_num [qConst]

/-- C3: evaluation of the gas-column derivation at a concrete run with
`delta_time = 2` (time array `0, 2, 4, 6`, constant fluid rate 1000,
`bsw = 0`). With `glr = 2`: `gas_cum[0] = (oil_cum[0]+water_cum[0])*2 = 4000`
as the claim states, but the code's `gas_volume[0]` is 2000, not the
per-step increment 4000 of `gas_cum` — the GLR branch divides the increment
by `delta_time` (wor.py line 249). With `gor = 2` the code returns
`gas_volume[0] = 4000`, the undivided increment, matching the claim. With
neither set all gas columns are zero. -/
theorem claim3_gas_columns :
    (gasCols none (some 2) (oil_cumCol 4 tDouble qConst 0 0)
        (water_cumCol 4 tDouble qConst 0 0) (npGrad tDouble 4)).map
      (fun g => g.1 0) = some 4000 ∧
    (gasCols none (some 2) (oil_cumCol 4 tDouble qConst 0 0)
        (water_cumCol 4 tDouble qConst 0 0) (npGrad tDouble 4)).map
      (fun g => g.2.1 0) = some 2000 ∧
    (gasCols (some 2) none (oil_cumCol 4 tDouble qConst 0 0)
        (water_cumCol 4 tDouble qConst 0 0) (npGrad tDouble 4)).map
      (fun g => g.2.1 0) = some 4000 ∧
    gasCols none none (oil_cumCol 4 tDouble qConst 0 0)
        (water_cumCol 4 tDouble qConst 0 0) (npGrad tDouble 4) =
      some (fun _ => 0, fun _ => 0, fun _ => 0) := by
  have hglr : gasCols none (some 2) (oil_cumCol 4 tDouble qConst 0 0)
      (water_cumCol 4 tDouble qConst 0 0) (npGrad tDouble 4) =
      some (fun i => (oil_cumCol 4 tDouble qConst 0 0 i +
              water_cumCol 4 tDouble qConst 0 0 i) * (2 : ℝ),
            fun i => diff0 (fun j => (oil_cumCol 4 tDouble qConst 0 0 j +
              water_cumCol 4 tDouble qConst 0 0 j) * (2 : ℝ)) i / npGrad tDouble 4 i,
            fun i => diff0 (fun j => (oil_cumCol 4 tDouble qConst 0 0 j +
              water_cumCol 4 tDouble qConst 0 0 j) * (2 : ℝ)) i / npGrad tDouble 4 i /
                npGrad tDouble 4 i) := by
    unfold gasCols
    rw [if_pos (Or.inr (by simp)), if_neg (by simp [truthy]),
      if_pos (by norm_num [truthy])]
    simp only [Option.getD_some]
  have hgor : gasCols (some 2) none (oil_cumCol 4 tDouble qConst 0 0)
      (water_cumCol 4 tDouble qConst 0 0) (npGrad tDouble 4) =
      some (fun i => oil_cumCol 4 tDouble qConst 0 0 i * (2 : ℝ),
            fun i => diff0 (fun j => oil_cumCol 4 tDouble qConst 0 0 j * (2 : ℝ)) i,
            fun i => diff0 (fun j => oil_cumCol 4 tDouble qConst 0 0 j * (2 : ℝ)) i /
              npGrad tDouble 4 i) := by
    unfold gasCols
    rw [if_pos (Or.inl (by simp)), if_pos (by norm_num [truthy])]
    simp only [Option.getD_some]
  refine ⟨?_, ?_, ?_, ?_⟩
  · rw [hglr]
    simp only [Option.map_some']
    rw [oc_tDouble_zero, water_cum_w0_zero]
    norm_num
  · rw [hglr]
    simp only [Option.map_some']
    have hd : diff0 (fun j => (oil_cumCol 4 tDouble qConst 0 0 j +
        water_cumCol 4 tDouble qConst 0 0 j) * (2 : ℝ)) 0 =
        (oil_cumCol 4 tDouble qConst 0 0 0 + water_cumCol 4 tDouble qConst 0 0 0) * 2 := rfl
    rw [hd, oc_tDouble_zero, water_cum_w0_zero,
      npGrad_tDouble (show (2 : ℕ) ≤ 4 by norm_num)]
    norm_num
  · rw [hgor]
    simp only [Option.map_some']
    have hd : diff0 (fun j => oil_cumCol 4 tDouble qConst 0 0 j * (2 : ℝ)) 0 =
        oil_cumCol 4 tDouble qConst 0 0 0 * 2 := rfl
    rw [hd, oc_tDouble_zero]
    norm_num
  · unfold gasCols
    rw [if_neg (by simp)]

end Dcapy

end
